import Mathlib

/-!
Verification of the RecruiterLab upload/transcribe/analyze pipeline.

The definitions below are a shallow embedding of the repository's two
Supabase edge functions (`supabase/functions/transcribe-audio/index.ts`
and `supabase/functions/process-interview/index.ts`), of the client
upload flow (`src/components/FileUploadComponent.tsx`), and of the
database schema constraints (the SQL migration: the `interviews.status`
CHECK constraint and the `interview_summaries` foreign keys).
Handlers are modelled as pure functions from an environment (auth
result, upstream AI responses), a database state and a request to a
result record carrying the HTTP response fields, the new database
state, and a trace of which external calls were made.
-/

namespace HireScribe

/-! ### JavaScript string primitives used by the handlers -/

/-- Character set removed by `String.prototype.trim` (ECMAScript
WhiteSpace and LineTerminator code points). -/
def isJsTrimWs (c : Char) : Bool :=
  c.toNat == 9 || c.toNat == 10 || c.toNat == 11 || c.toNat == 12 ||
  c.toNat == 13 || c.toNat == 32 || c.toNat == 160 || c.toNat == 0x1680 ||
  (0x2000 ≤ c.toNat && c.toNat ≤ 0x200a) || c.toNat == 0x2028 ||
  c.toNat == 0x2029 || c.toNat == 0x202f || c.toNat == 0x205f ||
  c.toNat == 0x3000 || c.toNat == 0xfeff

/-- Model of `String.prototype.trim`. -/
def jsTrim (s : String) : String :=
  String.mk (((s.data.dropWhile isJsTrimWs).reverse.dropWhile isJsTrimWs).reverse)

/-- Model of `String.prototype.substring` with both indices clamped to the
string length and reordered, as ECMAScript specifies. -/
def jsSubstring (s : String) (a b : Nat) : String :=
  let len := s.data.length
  let lo := min (min a len) (min b len)
  let hi := max (min a len) (min b len)
  String.mk ((s.data.drop lo).take (hi - lo))

/-- JavaScript falsiness of an optional string field of a parsed JSON body:
`!x` is true exactly when the field is absent (`undefined`) or `""`. -/
def strFalsy : Option String → Bool
  | none => true
  | some s => s == ""

/-! ### Base64: `atob` (WHATWG forgiving-base64 decode) and the encoder -/

/-- The standard base64 alphabet, index 0 to 63. -/
def b64Alphabet : List Char :=
  "ABCDEFGHIJKLMNOPQRSTUVWXYZabcdefghijklmnopqrstuvwxyz0123456789+/".data

/-- Character for a sextet (out-of-range indices never arise for sextets
produced from bytes). -/
def b64Chr (n : Nat) : Char := b64Alphabet.getD n 'A'

/-- Index of a character in the base64 alphabet; `none` for characters
outside it (including the padding character). -/
def b64Index (c : Char) : Option Nat := b64Alphabet.indexOf? c

/-- ASCII whitespace removed by forgiving-base64 decode. -/
def isB64Ws (c : Char) : Bool :=
  c == ' ' || c == '\t' || c == '\n' || c == Char.ofNat 12 || c == '\r'

/-- Remove up to two trailing padding characters. -/
def dropTrailingPad (cs : List Char) : List Char :=
  let r := cs.reverse
  let r1 := if r.head? == some '=' then r.tail else r
  let r2 := if r1.head? == some '=' then r1.tail else r1
  r2.reverse

/-- Per-character alphabet lookup over a chunk; fails on any character
outside the alphabet (models the decode error of `atob`). -/
def sextetsOf : List Char → Option (List Nat)
  | [] => some []
  | c :: cs =>
    match b64Index c, sextetsOf cs with
    | some v, some vs => some (v :: vs)
    | _, _ => none

/-- Bit-reassembly of forgiving-base64: each sextet contributes six bits;
full groups of four sextets give three bytes, a trailing group of two or
three sextets gives one or two bytes (low leftover bits discarded). -/
def decodeSextets : List Nat → List Nat
  | a :: b :: c :: d :: rest =>
    (a * 4 + b / 16) :: ((b % 16) * 16 + c / 4) :: ((c % 4) * 64 + d) ::
      decodeSextets rest
  | [a, b] => [a * 4 + b / 16]
  | [a, b, c] => [a * 4 + b / 16, (b % 16) * 16 + c / 4]
  | _ => []

/-- Model of `atob` (WHATWG forgiving-base64 decode) composed with the
`charCodeAt` loop of `processBase64Chunks`: whitespace is removed, up to
two trailing `=` are stripped when the length is a multiple of four, a
remaining length of 1 mod 4 or any character outside the alphabet is an
error, and the sextets are reassembled into bytes. -/
def atobChars (s : List Char) : Option (List Nat) :=
  let d0 := s.filter (fun c => !(isB64Ws c))
  let d1 := if d0.length % 4 = 0 then dropTrailingPad d0 else d0
  if d1.length % 4 = 1 then none
  else (sextetsOf d1).map decodeSextets

/-- Byte triples to sextets, with the 2- and 1-byte tails of the source
encoding (`btoa` semantics, padding handled separately). -/
def toSextets : List Nat → List Nat
  | a :: b :: c :: rest =>
    (a / 4) :: ((a % 4) * 16 + b / 16) :: ((b % 16) * 4 + c / 64) :: (c % 64) ::
      toSextets rest
  | [a] => [a / 4, (a % 4) * 16]
  | [a, b] => [a / 4, (a % 4) * 16 + b / 16, (b % 16) * 4]
  | [] => []

/-- Padding appended by the base64 encoder. -/
def padFor (n : Nat) : List Char :=
  match n % 3 with
  | 1 => ['=', '=']
  | 2 => ['=']
  | _ => []

/-- Standard base64 encoding of a byte sequence (the client's
`btoa(binary)`), producing the string the transcription handler receives
as `audioData`. -/
def encodeBase64 (bs : List Nat) : List Char :=
  (toSextets bs).map b64Chr ++ padFor bs.length

/-- Chunk size used by `processBase64Chunks` (default parameter in the
source; the handler always calls it with this default). -/
def base64ChunkSize : Nat := 32768

/-- Model of `processBase64Chunks` from `transcribe-audio/index.ts`:
slice the base64 string into consecutive chunks of `chunkSize`
characters, decode each chunk with `atob`, and concatenate the decoded
bytes.  A zero chunk size makes the source loop diverge; the model
returns `none` there. -/
def processBase64Chunks : List Char → Nat → Option (List Nat)
  | [], _ => some []
  | _ :: _, 0 => none
  | c :: cs, n + 1 =>
    match atobChars (List.take (n + 1) (c :: cs)),
          processBase64Chunks (List.drop (n + 1) (c :: cs)) (n + 1) with
    | some b, some rest => some (b ++ rest)
    | _, _ => none
termination_by cs _ => cs.length
decreasing_by
  simp only [List.length_drop, List.length_cons]
  omega


/-! ### JSON values, `JSON.parse` and `JSON.stringify` -/

/-- JSON values.  Numeric literals are kept as their source lexeme; the
handlers never compute with numbers. -/
inductive Json where
  | null : Json
  | bool : Bool → Json
  | num : String → Json
  | str : String → Json
  | arr : List Json → Json
  | obj : List (String × Json) → Json
deriving Repr

def lbrace : Char := Char.ofNat 123

def rbrace : Char := Char.ofNat 125

def jsonWsChar (c : Char) : Bool :=
  c == ' ' || c == '\t' || c == '\n' || c == '\r'

def skipJsonWs (cs : List Char) : List Char := cs.dropWhile jsonWsChar

def isJsonDigit (c : Char) : Bool := '0' ≤ c && c ≤ '9'

def isHexDigit (c : Char) : Bool :=
  isJsonDigit c || ('a' ≤ c && c ≤ 'f') || ('A' ≤ c && c ≤ 'F')

def hexVal (c : Char) : Nat :=
  if isJsonDigit c then c.toNat - 48
  else if 'a' ≤ c && c ≤ 'f' then c.toNat - 87
  else c.toNat - 55

/-- The single-character string escapes of JSON (`\uXXXX` is handled
separately). -/
def escapeChar : Char → Option Char
  | '"' => some '"'
  | '\\' => some '\\'
  | '/' => some '/'
  | 'b' => some (Char.ofNat 8)
  | 'f' => some (Char.ofNat 12)
  | 'n' => some '\n'
  | 'r' => some '\r'
  | 't' => some '\t'
  | _ => none

/-- Body of a JSON string literal after the opening quote: the decoded
content and the remainder after the closing quote. -/
def parseStrBody : List Char → Option (List Char × List Char)
  | [] => none
  | c :: rest =>
    if c == '"' then some ([], rest)
    else if c == '\\' then
      match rest with
      | 'u' :: h1 :: h2 :: h3 :: h4 :: rest4 =>
        if isHexDigit h1 && isHexDigit h2 && isHexDigit h3 && isHexDigit h4 then
          (parseStrBody rest4).map (fun p =>
            (Char.ofNat (((hexVal h1 * 16 + hexVal h2) * 16 + hexVal h3) * 16 + hexVal h4) :: p.1,
             p.2))
        else none
      | e :: rest2 =>
        match escapeChar e with
        | some ec => (parseStrBody rest2).map (fun p => (ec :: p.1, p.2))
        | none => none
      | [] => none
    else if c.toNat < 32 then none
    else (parseStrBody rest).map (fun p => (c :: p.1, p.2))

def lexFrac (cs : List Char) : Option (List Char × List Char) :=
  match cs with
  | '.' :: t =>
    let f := t.takeWhile isJsonDigit
    if f = [] then none else some ('.' :: f, t.dropWhile isJsonDigit)
  | _ => some ([], cs)

def lexExp (cs : List Char) : Option (List Char × List Char) :=
  match cs with
  | e :: t =>
    if e == 'e' || e == 'E' then
      let p : List Char × List Char :=
        match t with
        | '+' :: t2 => (['+'], t2)
        | '-' :: t2 => (['-'], t2)
        | _ => ([], t)
      let d := p.1
      let t1 := p.2
      let ds := t1.takeWhile isJsonDigit
      if ds = [] then none else some (e :: d ++ ds, t1.dropWhile isJsonDigit)
    else some ([], cs)
  | [] => some ([], [])

/-- Lexeme of a JSON number at the head of the input. -/
def lexNumber (cs : List Char) : Option (List Char × List Char) :=
  let p : List Char × List Char :=
    match cs with
    | '-' :: t => (['-'], t)
    | _ => ([], cs)
  let sign := p.1
  let cs1 := p.2
  let intPart := cs1.takeWhile isJsonDigit
  let cs2 := cs1.dropWhile isJsonDigit
  if intPart = [] then none
  else if intPart.head? = some '0' ∧ intPart.length ≠ 1 then none
  else
    match lexFrac cs2 with
    | none => none
    | some (fr, cs3) =>
      match lexExp cs3 with
      | none => none
      | some (ex, cs4) => some (sign ++ intPart ++ fr ++ ex, cs4)

mutual

/-- Recursive-descent JSON value parsing (the fuel bounds nesting depth
and always suffices when it exceeds the input length).  Input is
positioned at a non-whitespace character. -/
def parseJsonValue : Nat → List Char → Option (Json × List Char)
  | 0, _ => none
  | fuel + 1, cs =>
    match cs with
    | [] => none
    | c :: rest =>
      if c = lbrace then
        match skipJsonWs rest with
        | c2 :: r2 =>
          if c2 = rbrace then some (Json.obj [], r2)
          else (parseJsonMembers fuel (skipJsonWs rest)).map
            (fun p => (Json.obj p.1, p.2))
        | [] => none
      else if c == '[' then
        match skipJsonWs rest with
        | c2 :: r2 =>
          if c2 == ']' then some (Json.arr [], r2)
          else (parseJsonItems fuel (skipJsonWs rest)).map
            (fun p => (Json.arr p.1, p.2))
        | [] => none
      else if c == '"' then
        (parseStrBody rest).map (fun p => (Json.str (String.mk p.1), p.2))
      else
        match cs with
        | 't' :: 'r' :: 'u' :: 'e' :: r => some (Json.bool true, r)
        | 'f' :: 'a' :: 'l' :: 's' :: 'e' :: r => some (Json.bool false, r)
        | 'n' :: 'u' :: 'l' :: 'l' :: r => some (Json.null, r)
        | _ => (lexNumber cs).map (fun p => (Json.num (String.mk p.1), p.2))

def parseJsonMembers : Nat → List Char → Option (List (String × Json) × List Char)
  | 0, _ => none
  | fuel + 1, cs =>
    match cs with
    | c :: rest =>
      if c == '"' then
        match parseStrBody rest with
        | some (key, r1) =>
          match skipJsonWs r1 with
          | ':' :: r3 =>
            match parseJsonValue fuel (skipJsonWs r3) with
            | some (v, r4) =>
              match skipJsonWs r4 with
              | ',' :: r6 =>
                (parseJsonMembers fuel (skipJsonWs r6)).map
                  (fun p => ((String.mk key, v) :: p.1, p.2))
              | c5 :: r6 =>
                if c5 = rbrace then some ([(String.mk key, v)], r6) else none
              | [] => none
            | none => none
          | _ => none
        | none => none
      else none
    | [] => none

def parseJsonItems : Nat → List Char → Option (List Json × List Char)
  | 0, _ => none
  | fuel + 1, cs =>
    match parseJsonValue fuel cs with
    | some (v, r) =>
      match skipJsonWs r with
      | ',' :: r2 => (parseJsonItems fuel (skipJsonWs r2)).map
          (fun p => (v :: p.1, p.2))
      | c :: r2 => if c == ']' then some ([v], r2) else none
      | [] => none
    | none => none

end

/-- Model of `JSON.parse`: one value with surrounding whitespace, whole
input consumed; `none` models the thrown `SyntaxError`. -/
def jsonParse (s : String) : Option Json :=
  match parseJsonValue (s.data.length + 1) (skipJsonWs s.data) with
  | some (j, rest) =>
    match skipJsonWs rest with
    | [] => some j
    | _ :: _ => none
  | none => none

def hexDigit (n : Nat) : Char := "0123456789abcdef".data.getD n '0'

def escapeJsonChar (c : Char) : String :=
  if c == '"' then "\\\""
  else if c == '\\' then "\\\\"
  else if c == '\n' then "\\n"
  else if c == '\r' then "\\r"
  else if c == '\t' then "\\t"
  else if c.toNat == 8 then "\\b"
  else if c.toNat == 12 then "\\f"
  else if c.toNat < 32 then
    "\\u00" ++ String.mk [hexDigit (c.toNat / 16), hexDigit (c.toNat % 16)]
  else String.mk [c]

def escapeJsonString (s : String) : String :=
  String.join (s.data.map escapeJsonChar)

mutual

/-- Model of `JSON.stringify` (no indentation argument, as in the source). -/
def jsonStringify : Json → String
  | Json.null => "null"
  | Json.bool true => "true"
  | Json.bool false => "false"
  | Json.num lx => lx
  | Json.str s => "\"" ++ escapeJsonString s ++ "\""
  | Json.arr xs => "[" ++ jsonStringifyItems xs ++ "]"
  | Json.obj ms => String.mk [lbrace] ++ jsonStringifyMembers ms ++ String.mk [rbrace]

def jsonStringifyItems : List Json → String
  | [] => ""
  | x :: xs =>
    jsonStringify x ++ (if xs.isEmpty then "" else ",") ++ jsonStringifyItems xs

def jsonStringifyMembers : List (String × Json) → String
  | [] => ""
  | (k, v) :: ms =>
    "\"" ++ escapeJsonString k ++ "\":" ++ jsonStringify v ++
      (if ms.isEmpty then "" else ",") ++ jsonStringifyMembers ms

end

/-- Top-level keys of a JSON value: the keys of an object, else none. -/
def jsonKeys : Json → List String
  | Json.obj ms => ms.map Prod.fst
  | _ => []

/-! ### Database model

Rows keep the columns the embedded code reads or writes; the SQL
migration's `interviews.status` CHECK constraint and the
`interview_summaries` NOT NULL and foreign-key constraints are
enforced by the write operations.  The handlers connect with the
service-role key, so row-level-security policies do not restrict them
and are not modelled here. -/

/-- A row of `public.interviews` (columns the embedded code touches). -/
structure Interview where
  id : String
  user_id : String
  status : String
deriving Repr, DecidableEq

/-- A row of `public.summary_templates` (columns the embedded code touches). -/
structure SummaryTemplate where
  id : String
  user_id : String
  template_content : Option Json
  is_public : Bool
deriving Repr

/-- A row of `public.interview_summaries` as built by the analysis
handler's insert payload.  `interview_id` is optional because the
handler forwards the request field unvalidated; the NOT NULL constraint
is checked at insert time. -/
structure InterviewSummary where
  interview_id : Option String
  template_id : Option String
  summary_content : Json
  transcript_text : Option String
  ai_model_used : String
  processing_time_seconds : Nat
deriving Repr

/-- The relational store. -/
structure Db where
  interviews : List Interview
  summary_templates : List SummaryTemplate
  interview_summaries : List InterviewSummary
deriving Repr

/-- The `interviews.status` CHECK constraint from the migration:
`status IN ('uploading', 'processing', 'completed', 'failed')`. -/
def allowedStatuses : List String :=
  ["uploading", "processing", "completed", "failed"]

def statusCheckOk (st : String) : Bool := allowedStatuses.contains st

/-- `.from('interviews').select('*').eq('id', iid).eq('user_id', uid).single()`. -/
def selectInterviewScoped (db : Db) (iid uid : String) : Option Interview :=
  db.interviews.find? (fun i => i.id == iid && i.user_id == uid)

/-- `.from('summary_templates').select('template_content').eq('id', tid).eq('user_id', uid).single()`. -/
def selectTemplateScoped (db : Db) (tid uid : String) : Option SummaryTemplate :=
  db.summary_templates.find? (fun t => t.id == tid && t.user_id == uid)

/-- `.from('interviews').update({ status: st }).eq('id', iid)`: the CHECK
constraint rejects a status outside the allowed set, leaving the rows
unchanged; the callers in the source never inspect this operation's
error, so the model returns only the resulting store. -/
def updateInterviewStatus (db : Db) (iid st : String) : Db :=
  if statusCheckOk st then
    { db with interviews :=
        db.interviews.map (fun i => if i.id == iid then { i with status := st } else i) }
  else db

/-- `.from('interview_summaries').insert(row)`: enforces the NOT NULL
constraint on `interview_id` and the two foreign keys of the migration;
on success the row is appended. -/
def insertSummary (db : Db) (row : InterviewSummary) : Except String Db :=
  match row.interview_id with
  | none => .error "null value in column interview_id violates not-null constraint"
  | some iid =>
    if db.interviews.any (fun i => i.id == iid) then
      match row.template_id with
      | some tid =>
        if db.summary_templates.any (fun t => t.id == tid) then
          .ok { db with interview_summaries := db.interview_summaries ++ [row] }
        else .error "violates foreign key constraint interview_summaries_template_id_fkey"
      | none => .ok { db with interview_summaries := db.interview_summaries ++ [row] }
    else .error "violates foreign key constraint interview_summaries_interview_id_fkey"

/-- Status column of the row with the given id. -/
def statusOf (db : Db) (iid : String) : Option String :=
  (db.interviews.find? (fun i => i.id == iid)).map (fun i => i.status)

/-! ### Analysis handler: `supabase/functions/process-interview/index.ts` -/

/-- Parsed JSON body of a request to the analysis handler, plus the
authorization header.  `none` models an absent (`undefined`) field. -/
structure ProcessRequest where
  authHeader : Option String
  interviewId : Option String
  transcript : Option String
  templateId : Option String

/-- Environment of one analysis-handler invocation: the outcome of
`supabase.auth.getUser` on the presented token, the outcome and body of
the chat-completion call, and the measured elapsed seconds. -/
structure ProcessEnv where
  authUser : Option String
  openAIOk : Bool
  openAIContent : String
  elapsedSeconds : Nat

/-- Result of one analysis-handler invocation: the JSON response fields,
the resulting store, and whether the external chat-completion service
was called (and if so with which system prompt). -/
structure ProcessResult where
  success : Bool
  error : Option String
  summary : Option Json
  db : Db
  calledOpenAI : Bool
  sentSystemPrompt : Option String

def processErr (e : String) (db : Db) (called : Bool) (sp : Option String) :
    ProcessResult :=
  { success := false, error := some e, summary := none, db := db,
    calledOpenAI := called, sentSystemPrompt := sp }

/-- The fixed five-section system prompt of the source (template absent). -/
def defaultSystemPrompt : String :=
  "You are an expert hiring manager analyzing interview transcripts. Provide a structured analysis with the following sections:\n" ++
  "      1. Job Summary - Brief overview of the role and key requirements\n" ++
  "      2. Must-Haves - Critical skills and qualifications mentioned\n" ++
  "      3. Challenges - Potential concerns or red flags identified\n" ++
  "      4. Job Description - Suggested improvements to job posting\n" ++
  "      5. Recap Email - Draft follow-up email to candidate\n" ++
  "      \n" ++
  "      Return your response as a JSON object with these exact keys: jobSummary, mustHaves, challenges, jobDescription, recapEmail"

/-- System prompt when a template was found. -/
def templateSystemPrompt (t : Json) : String :=
  "You are an expert hiring manager analyzing interview transcripts. Use this template structure: " ++
    jsonStringify t

/-- Template content fetched for the request: only when `templateId` is
truthy, scoped to the caller, lookup errors ignored
(`templateData?.template_content`). -/
def templateContentOf (db : Db) (uid : String) (req : ProcessRequest) : Option Json :=
  match req.templateId with
  | some tid =>
    if tid ≠ "" then (selectTemplateScoped db tid uid).bind (fun t => t.template_content)
    else none
  | none => none

/-- System prompt chosen for the request. -/
def systemPromptOf (db : Db) (uid : String) (req : ProcessRequest) : String :=
  match templateContentOf db uid req with
  | some t => templateSystemPrompt t
  | none => defaultSystemPrompt

/-- The fixed placeholder written into the four non-summary fields of the
parse-failure fallback. -/
def reviewPlaceholder : String := "Please review the full analysis"

/-- The fallback summary object built when `JSON.parse(aiResponse)` throws. -/
def fallbackSummaryContent (aiResponse : String) : Json :=
  Json.obj
    [("jobSummary", Json.str (jsSubstring aiResponse 0 500)),
     ("mustHaves", Json.str reviewPlaceholder),
     ("challenges", Json.str reviewPlaceholder),
     ("jobDescription", Json.str reviewPlaceholder),
     ("recapEmail", Json.str reviewPlaceholder)]

/-- `summaryContent`: the parsed model output, or the fallback object. -/
def summaryContentOf (env : ProcessEnv) : Json :=
  match jsonParse env.openAIContent with
  | some parsed => parsed
  | none => fallbackSummaryContent env.openAIContent

/-- The row passed to the `interview_summaries` insert. -/
def summaryRowOf (env : ProcessEnv) (req : ProcessRequest) : InterviewSummary :=
  { interview_id := req.interviewId,
    template_id := req.templateId,
    summary_content := summaryContentOf env,
    transcript_text := req.transcript,
    ai_model_used := "gpt-4o-mini",
    processing_time_seconds := env.elapsedSeconds }

/-- The analysis handler.  Mirrors the source control flow: auth header,
token verification, optional template fetch (errors ignored), prompt
construction, chat-completion call (note: the destructured body fields
are never validated before this call), JSON parse with fallback, summary
insert (throwing on error), then the unconditional status update to
`completed` and the success response. -/
def processInterview (env : ProcessEnv) (db : Db) (req : ProcessRequest) :
    ProcessResult :=
  match req.authHeader with
  | none => processErr "No authorization header" db false none
  | some _ =>
    match env.authUser with
    | none => processErr "Invalid authorization" db false none
    | some uid =>
      let systemPrompt := systemPromptOf db uid req
      if !env.openAIOk then
        processErr "OpenAI API error" db true (some systemPrompt)
      else
        let row := summaryRowOf env req
        match insertSummary db row with
        | .error e => processErr e db true (some systemPrompt)
        | .ok db1 =>
          let db2 :=
            match req.interviewId with
            | some iid => updateInterviewStatus db1 iid "completed"
            | none => db1
          { success := true, error := none,
            summary := some row.summary_content, db := db2,
            calledOpenAI := true, sentSystemPrompt := some systemPrompt }

/-! ### Transcription handler: `supabase/functions/transcribe-audio/index.ts` -/

structure TranscribeRequest where
  authHeader : Option String
  interviewId : Option String
  audioData : Option String

/-- Environment of one transcription-handler invocation; `penv` is the
environment seen by the nested `process-interview` invocation. -/
structure TranscribeEnv where
  authUser : Option String
  whisperOk : Bool
  whisperText : String
  penv : ProcessEnv

structure TranscribeResult where
  success : Bool
  error : Option String
  transcription : Option String
  db : Db
  calledWhisper : Bool

def transcribeErr (e : String) (db : Db) (called : Bool) : TranscribeResult :=
  { success := false, error := some e, transcription := none, db := db,
    calledWhisper := called }

/-- The transcription handler.  Mirrors the source control flow: auth
header, token verification, required-field check, ownership-scoped
interview lookup, status update to `processing`, chunked base64 decode,
speech-to-text call, empty/whitespace transcript check, nested
`process-interview` invocation, success response. -/
def transcribeAudio (env : TranscribeEnv) (db : Db) (req : TranscribeRequest) :
    TranscribeResult :=
  match req.authHeader with
  | none => transcribeErr "Missing authorization header" db false
  | some authHeader =>
    match env.authUser with
    | none => transcribeErr "Unauthorized" db false
    | some uid =>
      if strFalsy req.interviewId || strFalsy req.audioData then
        transcribeErr "Missing interviewId or audioData" db false
      else
        let iid := req.interviewId.getD ""
        let audioData := req.audioData.getD ""
        match selectInterviewScoped db iid uid with
        | none => transcribeErr "Interview not found or unauthorized" db false
        | some _ =>
          let db1 := updateInterviewStatus db iid "processing"
          match processBase64Chunks audioData.data base64ChunkSize with
          | none => transcribeErr "InvalidCharacterError" db1 false
          | some _binaryAudio =>
            if !env.whisperOk then
              transcribeErr ("OpenAI API error: " ++ env.whisperText) db1 true
            else
              let transcriptionText := env.whisperText
              if transcriptionText == "" || jsTrim transcriptionText == "" then
                transcribeErr "No transcription received from OpenAI" db1 true
              else
                let nested := processInterview env.penv db1
                  { authHeader := some authHeader, interviewId := some iid,
                    transcript := some transcriptionText, templateId := none }
                if nested.success then
                  { success := true, error := none,
                    transcription := some transcriptionText, db := nested.db,
                    calledWhisper := true }
                else
                  transcribeErr "Failed to process transcript" nested.db true

/-! ### Client upload flow: `src/components/FileUploadComponent.tsx` -/

structure UploadEnv where
  sessionUser : Option String
  storageOk : Bool
  newInterviewId : String

/-- Result of the client `uploadFile` flow, with the trace of status
values the client passes to interview insert/update calls. -/
structure UploadResult where
  ok : Bool
  db : Db
  attemptedStatusWrites : List String

/-- The database-relevant steps of `uploadFile`: validation, interview
insert with status `uploading`, storage upload, then the update that
sets `file_url` and `status: 'uploaded'` with its result ignored.  The
CHECK constraint silently rejects that update, so the row keeps its
previous status. -/
def uploadFile (env : UploadEnv) (db : Db) (hasFile : Bool)
    (candidateName positionTitle : String) (_fileName : String)
    (consentObtained : Bool) : UploadResult :=
  if !hasFile || jsTrim candidateName == "" || jsTrim positionTitle == "" ||
      !consentObtained then
    { ok := false, db := db, attemptedStatusWrites := [] }
  else
    match env.sessionUser with
    | none => { ok := false, db := db, attemptedStatusWrites := [] }
    | some uid =>
      let newRow : Interview :=
        { id := env.newInterviewId, user_id := uid, status := "uploading" }
      let db1 : Db := { db with interviews := db.interviews ++ [newRow] }
      if !env.storageOk then
        { ok := false, db := db1, attemptedStatusWrites := ["uploading"] }
      else
        let db2 := updateInterviewStatus db1 env.newInterviewId "uploaded"
        { ok := true, db := db2,
          attemptedStatusWrites := ["uploading", "uploaded"] }

/-! ### Concrete scenarios used by counterexamples and witnesses -/

/-- One interview `i1` owned by `alice`; no templates, no summaries. -/
def dbAliceI1 : Db :=
  { interviews := [{ id := "i1", user_id := "alice", status := "uploading" }],
    summary_templates := [], interview_summaries := [] }

/-- Analysis-handler environment: caller authenticated as `bob`, the
chat-completion call succeeds with prose output. -/
def envC1 : ProcessEnv :=
  { authUser := some "bob", openAIOk := true,
    openAIContent := "Strong candidate overall.", elapsedSeconds := 2 }

def reqC1 : ProcessRequest :=
  { authHeader := some "Bearer bob-token", interviewId := some "i1",
    transcript := some "Interviewer: tell me about yourself.", templateId := none }

def envC4 : UploadEnv :=
  { sessionUser := some "alice", storageOk := true, newInterviewId := "iv1" }

def dbEmpty : Db :=
  { interviews := [], summary_templates := [], interview_summaries := [] }

def envW3 : ProcessEnv :=
  { authUser := some "alice", openAIOk := true,
    openAIContent := "The candidate is excellent and communicates clearly.",
    elapsedSeconds := 1 }

def reqW3 : ProcessRequest :=
  { authHeader := some "t", interviewId := some "i1",
    transcript := some "T", templateId := none }

def envW5 : TranscribeEnv :=
  { authUser := some "alice", whisperOk := true, whisperText := "  \n ",
    penv := { authUser := some "alice", openAIOk := true,
              openAIContent := "x", elapsedSeconds := 0 } }

def reqW5 : TranscribeRequest :=
  { authHeader := some "t", interviewId := some "i1", audioData := some "AAAA" }

def envW6 : ProcessEnv :=
  { authUser := some "alice", openAIOk := true,
    openAIContent := "plain text, not JSON", elapsedSeconds := 1 }

def reqW6 : ProcessRequest :=
  { authHeader := some "t", interviewId := some "i1",
    transcript := some "T", templateId := none }

def envC7 : ProcessEnv :=
  { authUser := some "alice", openAIOk := true,
    openAIContent := "analysis text", elapsedSeconds := 1 }

def reqC7 : ProcessRequest :=
  { authHeader := some "t", interviewId := some "i1",
    transcript := some "T", templateId := some "t9" }

/-- Like `dbAliceI1` but with one template `t9` owned by `carol`. -/
def dbW7 : Db :=
  { interviews := [{ id := "i1", user_id := "alice", status := "uploading" }],
    summary_templates :=
      [{ id := "t9", user_id := "carol",
         template_content := some (Json.str "Sections"), is_public := false }],
    interview_summaries := [] }

def envC8 : ProcessEnv :=
  { authUser := some "alice", openAIOk := true,
    openAIContent := "resp", elapsedSeconds := 1 }

/-- Analysis request whose `transcript` field is missing. -/
def reqC8 : ProcessRequest :=
  { authHeader := some "t", interviewId := some "i1",
    transcript := none, templateId := none }

def envW8 : TranscribeEnv :=
  { authUser := some "alice", whisperOk := true, whisperText := "x",
    penv := { authUser := some "alice", openAIOk := true,
              openAIContent := "x", elapsedSeconds := 0 } }

/-- Transcription request whose `audioData` field is missing. -/
def reqW8 : TranscribeRequest :=
  { authHeader := some "t", interviewId := some "i1", audioData := none }

/-- Chat-completion response that is a valid JSON object with the single
key `foo`. -/
def envC9 : ProcessEnv :=
  { authUser := some "alice", openAIOk := true,
    openAIContent := "\x7b\"foo\": 1\x7d", elapsedSeconds := 1 }

def reqC9 : ProcessRequest :=
  { authHeader := some "t", interviewId := some "i1",
    transcript := some "T", templateId := none }

def envW10 : ProcessEnv :=
  { authUser := some "alice", openAIOk := true,
    openAIContent := "more analysis text", elapsedSeconds := 1 }

def reqW10 : ProcessRequest :=
  { authHeader := some "t", interviewId := some "i1",
    transcript := some "T", templateId := some "t9" }

/-! ### Base64 decoder equations and round-trip lemmas -/

set_option maxHeartbeats 1000000 in
theorem pbc_nil (n : Nat) : processBase64Chunks [] n = some [] :=
  processBase64Chunks.eq_1 n

theorem pbc_cons (c : Char) (cs : List Char) (n : Nat) (h : n ≠ 0) :
    processBase64Chunks (c :: cs) n =
      match atobChars (List.take n (c :: cs)),
            processBase64Chunks (List.drop n (c :: cs)) n with
      | some b, some rest => some (b ++ rest)
      | _, _ => none := by
  rcases n with _ | m
  · exact absurd rfl h
  · exact processBase64Chunks.eq_3 c cs m

/-! ### Round-trip lemmas for the chunked base64 decoder -/

theorem decodeSextets_toSextets (bs : List Nat) (hb : ∀ b ∈ bs, b < 256) :
    decodeSextets (toSextets bs) = bs := by
  induction bs using toSextets.induct with
  | case1 a b c rest ih =>
    have ha : a < 256 := hb a (by simp)
    have hb2 : b < 256 := hb b (by simp)
    have hc : c < 256 := hb c (by simp)
    have ih' := ih (fun x hx => hb x (by simp [hx]))
    simp only [toSextets, decodeSextets, ih', List.cons.injEq, and_true]
    refine ⟨by omega, by omega, by omega⟩
  | case2 a =>
    have ha : a < 256 := hb a (by simp)
    simp only [toSextets, decodeSextets, List.cons.injEq, and_true]
    omega
  | case3 a b =>
    have ha : a < 256 := hb a (by simp)
    have hb2 : b < 256 := hb b (by simp)
    simp only [toSextets, decodeSextets, List.cons.injEq, and_true]
    refine ⟨by omega, by omega⟩
  | case4 => rfl

theorem toSextets_lt (bs : List Nat) (hb : ∀ b ∈ bs, b < 256) :
    ∀ x ∈ toSextets bs, x < 64 := by
  induction bs using toSextets.induct with
  | case1 a b c rest ih =>
    have ha : a < 256 := hb a (by simp)
    have hb2 : b < 256 := hb b (by simp)
    have hc : c < 256 := hb c (by simp)
    intro x hx
    simp only [toSextets, List.mem_cons] at hx
    rcases hx with rfl | rfl | rfl | rfl | hx
    · omega
    · omega
    · omega
    · omega
    · exact ih (fun y hy => hb y (by simp [hy])) x hx
  | case2 a =>
    have ha : a < 256 := hb a (by simp)
    intro x hx
    simp only [toSextets, List.mem_cons, List.not_mem_nil, or_false] at hx
    rcases hx with rfl | rfl <;> omega
  | case3 a b =>
    have ha : a < 256 := hb a (by simp)
    have hb2 : b < 256 := hb b (by simp)
    intro x hx
    simp only [toSextets, List.mem_cons, List.not_mem_nil, or_false] at hx
    rcases hx with rfl | rfl | rfl <;> omega
  | case4 => intro x hx; simp [toSextets] at hx

theorem toSextets_length_mod (bs : List Nat) : (toSextets bs).length % 4 ≠ 1 := by
  induction bs using toSextets.induct with
  | case1 a b c rest ih => simp only [toSextets, List.length_cons]; omega
  | case2 a => simp only [toSextets, List.length_cons, List.length_nil]; omega
  | case3 a b => simp only [toSextets, List.length_cons, List.length_nil]; omega
  | case4 => simp only [toSextets, List.length_nil]; omega

theorem b64Chr_mem (n : Nat) : b64Chr n ∈ 'A' :: b64Alphabet := by
  unfold b64Chr
  rcases h : b64Alphabet.get? n with _ | c
  · rw [List.getD_eq_getD_get?, h]; exact List.mem_cons_self _ _
  · rw [List.getD_eq_getD_get?, h]
    exact List.mem_cons_of_mem _ (List.get?_mem h)

theorem b64Chr_not_ws (n : Nat) : isB64Ws (b64Chr n) = false := by
  have h := b64Chr_mem n
  have hall : ∀ c ∈ 'A' :: b64Alphabet, isB64Ws c = false := by decide
  exact hall _ h

theorem b64Chr_ne_pad (n : Nat) : b64Chr n ≠ '=' := by
  have h := b64Chr_mem n
  have hall : ∀ c ∈ 'A' :: b64Alphabet, c ≠ '=' := by decide
  exact hall _ h

theorem b64Index_b64Chr (n : Nat) (h : n < 64) : b64Index (b64Chr n) = some n := by
  have hfin : ∀ i : Fin 64, b64Index (b64Chr i.val) = some i.val := by decide
  exact hfin ⟨n, h⟩

theorem sextetsOf_map (l : List Nat) (h : ∀ x ∈ l, x < 64) :
    sextetsOf (l.map b64Chr) = some l := by
  induction l with
  | nil => rfl
  | cons x xs ih =>
    simp only [List.map_cons, sextetsOf]
    rw [b64Index_b64Chr x (h x (by simp)), ih (fun y hy => h y (by simp [hy]))]

theorem mem_padFor (m : Nat) : ∀ c ∈ padFor m, c = '=' := by
  intro c hc
  unfold padFor at hc
  split at hc <;> simp_all

theorem padFor_cases (m : Nat) :
    padFor m = [] ∨ padFor m = ['='] ∨ padFor m = ['=', '='] := by
  unfold padFor
  split
  · right; right; rfl
  · right; left; rfl
  · left; rfl

theorem dropTrailingPad_append (xs : List Char) (hne : ∀ c ∈ xs, c ≠ '=')
    (m : Nat) : dropTrailingPad (xs ++ padFor m) = xs := by
  have hlast : ¬ xs.getLast? = some '=' := by
    rw [← List.head?_reverse]
    cases hx : xs.reverse with
    | nil => simp
    | cons c t =>
      have hc : c ≠ '=' := hne c (by rw [← List.mem_reverse, hx]; exact List.mem_cons_self _ _)
      simp [hc]
  rcases padFor_cases m with hp | hp | hp <;> rw [hp] <;>
    simp [dropTrailingPad, List.reverse_append, hlast]

theorem padFor_add3 (m : Nat) : padFor (m + 3) = padFor m := by
  unfold padFor
  rw [Nat.add_mod_right]

theorem encode_cons (a b c : Nat) (rest : List Nat) :
    encodeBase64 (a :: b :: c :: rest) =
      b64Chr (a / 4) :: b64Chr ((a % 4) * 16 + b / 16) ::
      b64Chr ((b % 16) * 4 + c / 64) :: b64Chr (c % 64) :: encodeBase64 rest := by
  unfold encodeBase64
  rw [show (a :: b :: c :: rest).length = rest.length + 3 from rfl, padFor_add3]
  rfl

theorem encode_length (bs : List Nat) :
    (encodeBase64 bs).length = 4 * ((bs.length + 2) / 3) := by
  induction bs using toSextets.induct with
  | case1 a b c rest ih =>
    rw [encode_cons]
    simp only [List.length_cons, ih]
    omega
  | case2 a => simp [encodeBase64, toSextets, padFor]
  | case3 a b => simp [encodeBase64, toSextets, padFor]
  | case4 => simp [encodeBase64, toSextets, padFor]

theorem atob_encode (bs : List Nat) (hb : ∀ b ∈ bs, b < 256) :
    atobChars (encodeBase64 bs) = some bs := by
  have hfil : (encodeBase64 bs).filter (fun c => !(isB64Ws c)) = encodeBase64 bs := by
    rw [List.filter_eq_self]
    intro c hc
    unfold encodeBase64 at hc
    rcases List.mem_append.mp hc with h | h
    · rcases List.mem_map.mp h with ⟨n, _, rfl⟩
      simp [b64Chr_not_ws]
    · rw [mem_padFor _ c h]; rfl
  have hlen4 : (encodeBase64 bs).length % 4 = 0 := by
    rw [encode_length]; omega
  have hpad : dropTrailingPad (encodeBase64 bs) = (toSextets bs).map b64Chr := by
    unfold encodeBase64
    exact dropTrailingPad_append _
      (fun c hc => by rcases List.mem_map.mp hc with ⟨n, _, rfl⟩; exact b64Chr_ne_pad n) _
  have hlen1 : ¬ ((toSextets bs).map b64Chr).length % 4 = 1 := by
    rw [List.length_map]
    exact toSextets_length_mod bs
  simp only [atobChars]
  rw [hfil, if_pos hlen4, hpad, if_neg hlen1,
    sextetsOf_map _ (toSextets_lt bs hb)]
  simp only [Option.map_some']
  rw [decodeSextets_toSextets bs hb]

theorem encode_append (bs1 bs2 : List Nat) (h : bs1.length % 3 = 0) :
    encodeBase64 (bs1 ++ bs2) = encodeBase64 bs1 ++ encodeBase64 bs2 := by
  induction bs1 using toSextets.induct with
  | case1 a b c rest ih =>
    have h' : rest.length % 3 = 0 := by
      simp only [List.length_cons] at h; omega
    rw [List.cons_append, List.cons_append, List.cons_append,
      encode_cons, encode_cons, ih h']
    rfl
  | case2 a => simp only [List.length_cons, List.length_nil] at h; omega
  | case3 a b => simp only [List.length_cons, List.length_nil] at h; omega
  | case4 => rfl

theorem pbc_single (cs : List Char) (n : Nat) (h0 : n ≠ 0) (h : cs.length ≤ n) :
    processBase64Chunks cs n = atobChars cs := by
  cases cs with
  | nil => rw [pbc_nil]; rfl
  | cons c cs' =>
    rw [pbc_cons _ _ _ h0]
    rw [List.take_of_length_le h, List.drop_eq_nil_of_le h, pbc_nil]
    cases h' : atobChars (c :: cs') with
    | none => rfl
    | some b => simp

theorem pbc_append (cs1 cs2 : List Char) (n : Nat) (h0 : n ≠ 0)
    (h : cs1.length = n) :
    processBase64Chunks (cs1 ++ cs2) n =
      match atobChars cs1, processBase64Chunks cs2 n with
      | some b, some rest => some (b ++ rest)
      | _, _ => none := by
  cases cs1 with
  | nil => simp at h; omega
  | cons c cs' =>
    rw [List.cons_append, pbc_cons _ _ _ h0, ← List.cons_append]
    rw [← h, List.take_left, List.drop_left]

theorem pbc_encode_aux (n : Nat) (hn : n ≠ 0) (h4 : n % 4 = 0) :
    ∀ L : Nat, ∀ bs : List Nat, bs.length ≤ L → (∀ b ∈ bs, b < 256) →
      processBase64Chunks (encodeBase64 bs) n = some bs := by
  intro L
  induction L with
  | zero =>
    intro bs hL hb
    have hbs : bs = [] := List.eq_nil_of_length_eq_zero (by omega)
    subst hbs
    rw [show encodeBase64 [] = [] from rfl, pbc_nil]
  | succ L IH =>
    intro bs hL hb
    by_cases hsmall : bs.length ≤ 3 * (n / 4)
    · have hlen : (encodeBase64 bs).length ≤ n := by
        rw [encode_length]; omega
      rw [pbc_single _ _ hn hlen, atob_encode bs hb]
    · push_neg at hsmall
      have htpos : 0 < 3 * (n / 4) := by omega
      have hsplit := List.take_append_drop (3 * (n / 4)) bs
      have hlen1 : (bs.take (3 * (n / 4))).length = 3 * (n / 4) := by
        rw [List.length_take]; omega
      have henc : encodeBase64 bs =
          encodeBase64 (bs.take (3 * (n / 4))) ++ encodeBase64 (bs.drop (3 * (n / 4))) := by
        conv_lhs => rw [← hsplit]
        exact encode_append _ _ (by rw [hlen1]; omega)
      have hE1 : (encodeBase64 (bs.take (3 * (n / 4)))).length = n := by
        rw [encode_length, hlen1]; omega
      rw [henc, pbc_append _ _ n hn hE1]
      rw [atob_encode (bs.take (3 * (n / 4)))
        (fun b hb' => hb b (List.take_subset _ _ hb'))]
      rw [IH (bs.drop (3 * (n / 4))) (by rw [List.length_drop]; omega)
        (fun b hb' => hb b (List.drop_subset _ _ hb'))]
      show some (bs.take (3 * (n / 4)) ++ bs.drop (3 * (n / 4))) = some bs
      rw [hsplit]

/-! ### Helper lemmas about the store operations -/

theorem take_min_length {α : Type} (l : List α) (n : Nat) :
    l.take (min n l.length) = l.take n := by
  by_cases h : n ≤ l.length
  · rw [Nat.min_eq_left h]
  · push_neg at h
    rw [Nat.min_eq_right (le_of_lt h), List.take_length,
      List.take_of_length_le (le_of_lt h)]

theorem jsSubstring_zero (s : String) (n : Nat) :
    jsSubstring s 0 n = String.mk (s.data.take n) := by
  simp only [jsSubstring, Nat.zero_min, Nat.zero_max, Nat.sub_zero, List.drop_zero]
  congr 1
  exact take_min_length s.data n

theorem findStatus_update (l : List Interview) (iid st : String)
    (h : l.any (fun i => i.id == iid) = true) :
    ((l.map (fun i => if i.id == iid then { i with status := st } else i)).find?
      (fun i => i.id == iid)).map (fun i => i.status) = some st := by
  induction l with
  | nil => simp at h
  | cons a l ih =>
    simp only [List.any_cons, Bool.or_eq_true] at h
    by_cases ha : (a.id == iid) = true
    · rw [List.map_cons, if_pos ha]
      have hfind : List.find? (fun i => i.id == iid)
          ({ a with status := st } ::
            l.map (fun i => if i.id == iid then { i with status := st } else i)) =
          some { a with status := st } :=
        List.find?_cons_of_pos _ ha
      rw [hfind]
      rfl
    · rcases h with h | h
      · exact absurd h ha
      · rw [List.map_cons, if_neg ha]
        have hfind : List.find? (fun i => i.id == iid)
            (a :: l.map (fun i => if i.id == iid then { i with status := st } else i)) =
            List.find? (fun i => i.id == iid)
              (l.map (fun i => if i.id == iid then { i with status := st } else i)) :=
          List.find?_cons_of_neg _ ha
        rw [hfind]
        exact ih h

theorem statusOf_update (db : Db) (iid st : String)
    (hmem : db.interviews.any (fun i => i.id == iid) = true)
    (hok : statusCheckOk st = true) :
    statusOf (updateInterviewStatus db iid st) iid = some st := by
  unfold updateInterviewStatus statusOf
  simp only [hok, if_true]
  exact findStatus_update db.interviews iid st hmem

theorem update_preserves_summaries (db : Db) (iid st : String) :
    (updateInterviewStatus db iid st).interview_summaries = db.interview_summaries := by
  unfold updateInterviewStatus
  split <;> rfl

theorem insertSummary_ok_spec (db : Db) (row : InterviewSummary) (db' : Db)
    (h : insertSummary db row = .ok db') :
    db'.interviews = db.interviews ∧
    db'.interview_summaries = db.interview_summaries ++ [row] ∧
    (∀ iid, row.interview_id = some iid →
      db.interviews.any (fun i => i.id == iid) = true) := by
  unfold insertSummary at h
  cases hr : row.interview_id with
  | none => rw [hr] at h; cases h
  | some iid0 =>
    rw [hr] at h
    by_cases hany : db.interviews.any (fun i => i.id == iid0) = true
    · simp only [hany, if_true] at h
      have hconc : db' = { db with interview_summaries := db.interview_summaries ++ [row] } := by
        cases ht : row.template_id with
        | none => rw [ht] at h; cases h; rfl
        | some tid0 =>
          rw [ht] at h
          by_cases htany : db.summary_templates.any (fun t => t.id == tid0) = true
          · simp only [htany, if_true] at h; cases h; rfl
          · simp only [Bool.not_eq_true] at htany
            simp only [htany, Bool.false_eq_true, if_false] at h; cases h
      subst hconc
      refine ⟨rfl, rfl, ?_⟩
      intro iid hiid
      injection hiid with h2
      subst h2
      exact hany
    · simp only [Bool.not_eq_true] at hany
      simp only [hany, Bool.false_eq_true, if_false] at h
      cases h

theorem any_of_selectScoped (db : Db) (iid uid : String) (iv : Interview)
    (h : selectInterviewScoped db iid uid = some iv) :
    db.interviews.any (fun i => i.id == iid) = true := by
  unfold selectInterviewScoped at h
  have hmem := List.mem_of_find?_eq_some h
  have hp := List.find?_some h
  simp only [Bool.and_eq_true] at hp
  exact List.any_eq_true.mpr ⟨iv, hmem, hp.1⟩

/-! ### Claim theorems -/

/-- **C1.** The claim states that in both handlers an invocation naming
an interview not owned by the authenticated caller fails with a
NotFoundOrForbidden-class error and performs no read or write of that
interview.  The analysis handler violates this: with the sole interview
`i1` owned by `alice` and the caller authenticated as `bob`, the
invocation succeeds, inserts a summary row for `i1` and flips the
interview's status to `completed` — the handler never looks the
interview up by owner before writing. -/
theorem C1_analysis_handler_writes_foreign_interview :
    dbAliceI1.interviews.map (fun i => i.user_id) = ["alice"] ∧
    envC1.authUser = some "bob" ∧
    (processInterview envC1 dbAliceI1 reqC1).success = true ∧
    (processInterview envC1 dbAliceI1 reqC1).db.interview_summaries =
      [summaryRowOf envC1 reqC1] ∧
    statusOf (processInterview envC1 dbAliceI1 reqC1).db "i1" = some "completed" :=
  ⟨rfl, rfl, rfl, rfl, rfl⟩

/-- **C2 counterexample.** The claim quantifies over every chunk size,
but chunked decoding loses data when the chunk size is not a multiple of
four: the bytes `[0, 0, 0]` encode to the four-character base64 string
`AAAA`, and decoding it in chunks of two characters yields only two
bytes. -/
theorem C2_chunk_size_two_loses_bytes :
    processBase64Chunks (encodeBase64 [0, 0, 0]) 2 = some [0, 0] ∧
    [0, 0] ≠ [0, 0, 0] := by
  constructor
  · have e1 : encodeBase64 [0, 0, 0] = ['A', 'A', 'A', 'A'] := rfl
    have h2 : processBase64Chunks ['A', 'A'] 2 = some [0] := by
      rw [pbc_cons _ _ _ (by decide),
        show List.take 2 ['A', 'A'] = ['A', 'A'] from rfl,
        show List.drop 2 ['A', 'A'] = ([] : List Char) from rfl, pbc_nil,
        show atobChars ['A', 'A'] = some [0] from by decide]
      rfl
    rw [e1, pbc_cons _ _ _ (by decide),
      show List.take 2 ['A', 'A', 'A', 'A'] = ['A', 'A'] from rfl,
      show List.drop 2 ['A', 'A', 'A', 'A'] = ['A', 'A'] from rfl, h2,
      show atobChars ['A', 'A'] = some [0] from by decide]
    rfl
  · decide

/-- **C2 (amended).** For every byte sequence and every chunk size that
is a positive multiple of four (the source's fixed 32768 in particular),
decoding the base64 encoding in consecutive chunks of that size and
concatenating reproduces the original bytes exactly. -/
theorem C2_chunked_decode_roundtrip (bs : List Nat) (n : Nat)
    (hb : ∀ b ∈ bs, b < 256) (hn : 0 < n) (h4 : n % 4 = 0) :
    processBase64Chunks (encodeBase64 bs) n = some bs :=
  pbc_encode_aux n (by omega) h4 bs.length bs le_rfl hb

/-- Witness for C2: six bytes decoded in two chunks of four characters. -/
theorem C2_chunked_decode_roundtrip_witness :
    (∀ b ∈ [72, 105, 33, 10, 0, 255], b < 256) ∧ 0 < 4 ∧ 4 % 4 = 0 ∧
    processBase64Chunks (encodeBase64 [72, 105, 33, 10, 0, 255]) 4 =
      some [72, 105, 33, 10, 0, 255] :=
  ⟨by decide, by decide, by decide,
   C2_chunked_decode_roundtrip [72, 105, 33, 10, 0, 255] 4
     (by decide) (by decide) (by decide)⟩

/-- **C4.** The claim states every status value written to an interview
record is one of `uploading`, `processing`, `completed`, `failed`.  The
client upload flow contradicts the schema: after a successful storage
upload, `uploadFile` issues an update with `status: 'uploaded'`, a value
outside the CHECK constraint, without inspecting the result — the
database rejects the write and the row silently keeps status
`uploading`. -/
theorem C4_client_attempts_status_uploaded :
    (uploadFile envC4 dbEmpty true "Jane Doe" "Engineer" "interview.txt"
      true).attemptedStatusWrites = ["uploading", "uploaded"] ∧
    statusCheckOk "uploaded" = false ∧
    statusOf (uploadFile envC4 dbEmpty true "Jane Doe" "Engineer"
      "interview.txt" true).db "iv1" = some "uploading" :=
  ⟨rfl, rfl, rfl⟩

/-- **C3.** When the chat-completion response is not valid JSON and the
invocation succeeds, both the returned summary and the newly stored
summary content equal exactly the fallback object, whose `jobSummary` is
the first 500 characters of the raw response text and whose four other
fields are all the fixed placeholder string. -/
theorem C3_parse_failure_stores_fallback
    (env : ProcessEnv) (db : Db) (req : ProcessRequest) (a uid : String)
    (hah : req.authHeader = some a)
    (hau : env.authUser = some uid)
    (hok : env.openAIOk = true)
    (hparse : jsonParse env.openAIContent = none)
    (hsucc : (processInterview env db req).success = true) :
    (processInterview env db req).summary =
      some (fallbackSummaryContent env.openAIContent) ∧
    (processInterview env db req).db.interview_summaries.map
        (fun r => r.summary_content) =
      db.interview_summaries.map (fun r => r.summary_content) ++
        [fallbackSummaryContent env.openAIContent] ∧
    fallbackSummaryContent env.openAIContent =
      Json.obj
        [("jobSummary", Json.str (String.mk (env.openAIContent.data.take 500))),
         ("mustHaves", Json.str "Please review the full analysis"),
         ("challenges", Json.str "Please review the full analysis"),
         ("jobDescription", Json.str "Please review the full analysis"),
         ("recapEmail", Json.str "Please review the full analysis")] := by
  have hcontent : summaryContentOf env = fallbackSummaryContent env.openAIContent := by
    unfold summaryContentOf
    rw [hparse]
  have hrowc : (summaryRowOf env req).summary_content = summaryContentOf env := rfl
  cases hins : insertSummary db (summaryRowOf env req) with
  | error e =>
    exfalso
    simp only [processInterview, hah, hau, hok, Bool.not_true,
      Bool.false_eq_true, if_false, hins, processErr] at hsucc
  | ok db1 =>
    have hspec := insertSummary_ok_spec db _ db1 hins
    simp only [processInterview, hah, hau, hok, Bool.not_true,
      Bool.false_eq_true, if_false, hins]
    refine ⟨?_, ?_, ?_⟩
    · rw [show some (summaryRowOf env req).summary_content =
          some (summaryContentOf env) from rfl, hcontent]
    · have hsum : (match req.interviewId with
          | some iid => updateInterviewStatus db1 iid "completed"
          | none => db1).interview_summaries = db1.interview_summaries := by
        cases req.interviewId with
        | none => rfl
        | some iid => exact update_preserves_summaries db1 iid "completed"
      rw [hsum, hspec.2.1, List.map_append, List.map_singleton, hrowc, hcontent]
    · simp only [fallbackSummaryContent, reviewPlaceholder, jsSubstring_zero]

/-- Witness for C3: a prose chat-completion response with one interview
owned by the caller. -/
theorem C3_parse_failure_stores_fallback_witness :
    (processInterview envW3 dbAliceI1 reqW3).summary =
      some (fallbackSummaryContent envW3.openAIContent) ∧
    (processInterview envW3 dbAliceI1 reqW3).db.interview_summaries.map
        (fun r => r.summary_content) =
      dbAliceI1.interview_summaries.map (fun r => r.summary_content) ++
        [fallbackSummaryContent envW3.openAIContent] ∧
    fallbackSummaryContent envW3.openAIContent =
      Json.obj
        [("jobSummary", Json.str (String.mk (envW3.openAIContent.data.take 500))),
         ("mustHaves", Json.str "Please review the full analysis"),
         ("challenges", Json.str "Please review the full analysis"),
         ("jobDescription", Json.str "Please review the full analysis"),
         ("recapEmail", Json.str "Please review the full analysis")] :=
  C3_parse_failure_stores_fallback envW3 dbAliceI1 reqW3 "t" "alice"
    rfl rfl rfl rfl rfl

/-- **C5.** When a transcription-handler invocation passes validation and
the ownership check but then fails — the speech-to-text call returns a
non-success response, or the returned transcript is empty or
whitespace-only — the response has `success := false` and the interview
is left with status `processing` (set just before the external call); no
transition to `failed` happens. -/
theorem C5_transcription_failure_leaves_processing
    (env : TranscribeEnv) (db : Db) (req : TranscribeRequest)
    (a uid : String) (iv : Interview)
    (hah : req.authHeader = some a)
    (hau : env.authUser = some uid)
    (hiid : strFalsy req.interviewId = false)
    (haud : strFalsy req.audioData = false)
    (hown : selectInterviewScoped db (req.interviewId.getD "") uid = some iv)
    (hdec : (processBase64Chunks (req.audioData.getD "").data
      base64ChunkSize).isSome = true)
    (hfail : env.whisperOk = false ∨ env.whisperText = "" ∨
      jsTrim env.whisperText = "") :
    (transcribeAudio env db req).success = false ∧
    statusOf (transcribeAudio env db req).db (req.interviewId.getD "") =
      some "processing" := by
  have hany := any_of_selectScoped db _ uid iv hown
  have hst : statusOf
      (updateInterviewStatus db (req.interviewId.getD "") "processing")
      (req.interviewId.getD "") = some "processing" :=
    statusOf_update db _ "processing" hany (by decide)
  rcases Option.isSome_iff_exists.mp hdec with ⟨bts, hbts⟩
  cases hwk : env.whisperOk with
  | false =>
    simp only [transcribeAudio, hah, hau, hiid, haud, Bool.or_self,
      Bool.false_eq_true, if_false, hown, hbts, hwk, Bool.not_false, if_true,
      transcribeErr]
    refine ⟨?_, hst⟩
    trivial
  | true =>
    have htxt : (env.whisperText == "" || jsTrim env.whisperText == "") = true := by
      rcases hfail with h | h | h
      · rw [hwk] at h; cases h
      · simp [h]
      · simp [h]
    simp only [transcribeAudio, hah, hau, hiid, haud, Bool.or_self,
      Bool.false_eq_true, if_false, hown, hbts, hwk, Bool.not_true, htxt,
      if_true, transcribeErr]
    refine ⟨?_, hst⟩
    trivial

/-- Witness for C5: the speech-to-text call succeeds but returns a
whitespace-only transcript; the interview stays at `processing`. -/
theorem C5_transcription_failure_witness :
    (transcribeAudio envW5 dbAliceI1 reqW5).success = false ∧
    statusOf (transcribeAudio envW5 dbAliceI1 reqW5).db "i1" =
      some "processing" :=
  C5_transcription_failure_leaves_processing envW5 dbAliceI1 reqW5 "t"
    "alice" { id := "i1", user_id := "alice", status := "uploading" }
    rfl rfl rfl rfl rfl
    (by rw [show (reqW5.audioData.getD "").data = "AAAA".data from rfl,
          pbc_single _ _ (by decide) (by decide)]
        rfl)
    (Or.inr (Or.inr rfl))

/-- **C6.** In the analysis handler the parent interview's status is set
to `completed` exactly when the summary insert succeeded: on a
successful insert the invocation succeeds and the interview's stored
status is `completed`; on a failed insert the invocation fails and the
store is completely unchanged. -/
theorem C6_status_completed_iff_insert_ok
    (env : ProcessEnv) (db : Db) (req : ProcessRequest) (a uid iid : String)
    (hah : req.authHeader = some a)
    (hau : env.authUser = some uid)
    (hok : env.openAIOk = true)
    (hiid : req.interviewId = some iid) :
    match insertSummary db (summaryRowOf env req) with
    | .ok _ =>
      (processInterview env db req).success = true ∧
      statusOf (processInterview env db req).db iid = some "completed"
    | .error _ =>
      (processInterview env db req).success = false ∧
      (processInterview env db req).db = db := by
  cases hins : insertSummary db (summaryRowOf env req) with
  | ok db1 =>
    have hspec := insertSummary_ok_spec db _ db1 hins
    have hany : db1.interviews.any (fun i => i.id == iid) = true := by
      rw [hspec.1]
      exact hspec.2.2 iid (by rw [show (summaryRowOf env req).interview_id =
        req.interviewId from rfl, hiid])
    simp only [processInterview, hah, hau, hok, Bool.not_true,
      Bool.false_eq_true, if_false, hins, hiid]
    refine ⟨?_, statusOf_update db1 iid "completed" hany (by decide)⟩
    trivial
  | error e =>
    simp only [processInterview, hah, hau, hok, Bool.not_true,
      Bool.false_eq_true, if_false, hins, processErr]
    exact ⟨by trivial, by trivial⟩

/-- Witness for C6: a concrete invocation whose insert succeeds, so the
interview ends at `completed` with a success response. -/
theorem C6_status_completed_iff_insert_ok_witness :
    (processInterview envW6 dbAliceI1 reqW6).success = true ∧
    statusOf (processInterview envW6 dbAliceI1 reqW6).db "i1" =
      some "completed" :=
  C6_status_completed_iff_insert_ok envW6 dbAliceI1 reqW6 "t" "alice" "i1"
    rfl rfl rfl rfl

/-- **C7 counterexample.** With `templateId := "t9"` naming no template
row at all, the lookup's absence is tolerated and the default prompt is
used, but the invocation then fails at the summary insert (the
`template_id` foreign key) instead of proceeding to a success
response. -/
theorem C7_missing_template_errors_at_insert :
    (processInterview envC7 dbAliceI1 reqC7).sentSystemPrompt =
      some defaultSystemPrompt ∧
    (processInterview envC7 dbAliceI1 reqC7).success = false :=
  ⟨rfl, rfl⟩

/-- **C7 (amended).** A `templateId` whose caller-scoped lookup finds
nothing always falls back to the default five-section system prompt.
When a template row with that id exists but is owned by someone else the
insert's foreign key is satisfied and the invocation proceeds to a
success response; when no template row with that id exists at all, the
summary insert violates the `template_id` foreign key and the invocation
fails. -/
theorem C7_template_absence_falls_back
    (env : ProcessEnv) (db : Db) (req : ProcessRequest)
    (a uid tid iid : String)
    (hah : req.authHeader = some a)
    (hau : env.authUser = some uid)
    (hok : env.openAIOk = true)
    (htid : req.templateId = some tid)
    (hne : tid ≠ "")
    (hlook : selectTemplateScoped db tid uid = none)
    (hiid : req.interviewId = some iid)
    (hivk : db.interviews.any (fun i => i.id == iid) = true) :
    (processInterview env db req).sentSystemPrompt = some defaultSystemPrompt ∧
    (db.summary_templates.any (fun t => t.id == tid) = true →
      (processInterview env db req).success = true) ∧
    (db.summary_templates.any (fun t => t.id == tid) = false →
      (processInterview env db req).success = false) := by
  have hprompt : systemPromptOf db uid req = defaultSystemPrompt := by
    simp only [systemPromptOf, templateContentOf, htid, hne, ne_eq,
      not_false_eq_true, if_true, hlook, Option.none_bind]
  have hins : insertSummary db (summaryRowOf env req) =
      (if db.summary_templates.any (fun t => t.id == tid) = true then
        Except.ok { db with interview_summaries :=
          db.interview_summaries ++ [summaryRowOf env req] }
      else Except.error
        "violates foreign key constraint interview_summaries_template_id_fkey") := by
    simp only [insertSummary,
      show (summaryRowOf env req).interview_id = req.interviewId from rfl, hiid,
      hivk, if_true,
      show (summaryRowOf env req).template_id = req.templateId from rfl, htid]
  by_cases htany : db.summary_templates.any (fun t => t.id == tid) = true
  · rw [if_pos htany] at hins
    simp only [processInterview, hah, hau, hok, Bool.not_true,
      Bool.false_eq_true, if_false, hins, hiid, hprompt]
    refine ⟨by trivial, fun _ => by trivial, fun hfalse => ?_⟩
    rw [htany] at hfalse
    cases hfalse
  · rw [if_neg htany] at hins
    simp only [processInterview, hah, hau, hok, Bool.not_true,
      Bool.false_eq_true, if_false, hins, processErr, hprompt]
    exact ⟨by trivial, fun htrue => absurd htrue htany, fun _ => by trivial⟩

/-- Witness for C7: template `t9` exists but belongs to `carol`; the
caller `alice` gets the default prompt and a success response. -/
theorem C7_template_absence_falls_back_witness :
    (processInterview envC7 dbW7 reqC7).sentSystemPrompt =
      some defaultSystemPrompt ∧
    (dbW7.summary_templates.any (fun t => t.id == "t9") = true →
      (processInterview envC7 dbW7 reqC7).success = true) ∧
    (dbW7.summary_templates.any (fun t => t.id == "t9") = false →
      (processInterview envC7 dbW7 reqC7).success = false) :=
  C7_template_absence_falls_back envC7 dbW7 reqC7 "t" "alice" "t9" "i1"
    rfl rfl rfl rfl (by decide) rfl rfl rfl

/-- **C8 counterexample.** The analysis handler never validates the
destructured body fields: with `transcript` missing entirely, the
invocation still calls the external chat-completion service — and even
completes successfully — instead of rejecting with a BadRequest error
before any external call. -/
theorem C8_analysis_calls_ai_without_transcript :
    reqC8.transcript = none ∧
    (processInterview envC8 dbAliceI1 reqC8).calledOpenAI = true ∧
    (processInterview envC8 dbAliceI1 reqC8).success = true :=
  ⟨rfl, rfl, rfl⟩

/-- **C8 (amended).** The transcription handler does reject a request
missing `interviewId` or `audioData` with a `success := false` response
before any call to the external speech-to-text service and without
touching the store; the analysis handler performs no such validation. -/
theorem C8_transcribe_rejects_missing_fields
    (env : TranscribeEnv) (db : Db) (req : TranscribeRequest)
    (a uid : String)
    (hah : req.authHeader = some a)
    (hau : env.authUser = some uid)
    (hmiss : (strFalsy req.interviewId || strFalsy req.audioData) = true) :
    (transcribeAudio env db req).success = false ∧
    (transcribeAudio env db req).calledWhisper = false ∧
    (transcribeAudio env db req).db = db := by
  simp only [transcribeAudio, hah, hau, hmiss, if_true, transcribeErr]
  exact ⟨by trivial, by trivial, by trivial⟩

/-- Witness for C8: a transcription request whose `audioData` field is
missing is rejected before the external call. -/
theorem C8_transcribe_rejects_missing_fields_witness :
    (transcribeAudio envW8 dbAliceI1 reqW8).success = false ∧
    (transcribeAudio envW8 dbAliceI1 reqW8).calledWhisper = false ∧
    (transcribeAudio envW8 dbAliceI1 reqW8).db = dbAliceI1 :=
  C8_transcribe_rejects_missing_fields envW8 dbAliceI1 reqW8 "t" "alice"
    rfl rfl rfl

/-- **C9 counterexample.** A valid text upload can complete processing
with a stored summary that does not contain the five expected keys: when
the chat-completion response is the valid JSON object with the single
key `foo`, the invocation completes (status `completed`, success
response) and stores that object verbatim, since the success path
performs no key validation. -/
theorem C9_completed_summary_with_wrong_keys :
    (processInterview envC9 dbAliceI1 reqC9).success = true ∧
    statusOf (processInterview envC9 dbAliceI1 reqC9).db "i1" =
      some "completed" ∧
    (processInterview envC9 dbAliceI1 reqC9).db.interview_summaries.map
      (fun r => jsonKeys r.summary_content) = [["foo"]] ∧
    ["foo"] ≠ ["jobSummary", "mustHaves", "challenges", "jobDescription",
      "recapEmail"] :=
  ⟨rfl, rfl, rfl, by decide⟩

/-- **C9 (amended).** On every successful analysis invocation the newly
stored row records `ai_model_used = "gpt-4o-mini"` and its content is
exactly `summaryContentOf`: the fallback object — which has exactly the
five expected keys — when the response is not valid JSON, and the parsed
response verbatim, with no key validation, when it is. -/
theorem C9_model_recorded_and_keys
    (env : ProcessEnv) (db : Db) (req : ProcessRequest) (a uid : String)
    (hah : req.authHeader = some a)
    (hau : env.authUser = some uid)
    (hok : env.openAIOk = true)
    (hsucc : (processInterview env db req).success = true) :
    (processInterview env db req).db.interview_summaries.getLast? =
      some (summaryRowOf env req) ∧
    (summaryRowOf env req).ai_model_used = "gpt-4o-mini" ∧
    (jsonParse env.openAIContent = none →
      jsonKeys (summaryRowOf env req).summary_content =
        ["jobSummary", "mustHaves", "challenges", "jobDescription",
         "recapEmail"]) ∧
    (∀ p, jsonParse env.openAIContent = some p →
      (summaryRowOf env req).summary_content = p) := by
  cases hins : insertSummary db (summaryRowOf env req) with
  | error e =>
    exfalso
    simp only [processInterview, hah, hau, hok, Bool.not_true,
      Bool.false_eq_true, if_false, hins, processErr] at hsucc
  | ok db1 =>
    have hspec := insertSummary_ok_spec db _ db1 hins
    simp only [processInterview, hah, hau, hok, Bool.not_true,
      Bool.false_eq_true, if_false, hins]
    refine ⟨?_, rfl, ?_, ?_⟩
    · have hsum : (match req.interviewId with
          | some iid => updateInterviewStatus db1 iid "completed"
          | none => db1).interview_summaries = db1.interview_summaries := by
        cases req.interviewId with
        | none => rfl
        | some iid => exact update_preserves_summaries db1 iid "completed"
      rw [hsum, hspec.2.1, List.getLast?_concat]
    · intro hparse
      rw [show (summaryRowOf env req).summary_content = summaryContentOf env
        from rfl]
      unfold summaryContentOf
      rw [hparse]
      rfl
    · intro p hparse
      rw [show (summaryRowOf env req).summary_content = summaryContentOf env
        from rfl]
      unfold summaryContentOf
      rw [hparse]

/-- Witness for C9: the same completed invocation as the C6 witness,
checked against the amended statement. -/
theorem C9_model_recorded_and_keys_witness :
    (processInterview envW3 dbAliceI1 reqW3).db.interview_summaries.getLast? =
      some (summaryRowOf envW3 reqW3) ∧
    (summaryRowOf envW3 reqW3).ai_model_used = "gpt-4o-mini" ∧
    (jsonParse envW3.openAIContent = none →
      jsonKeys (summaryRowOf envW3 reqW3).summary_content =
        ["jobSummary", "mustHaves", "challenges", "jobDescription",
         "recapEmail"]) ∧
    (∀ p, jsonParse envW3.openAIContent = some p →
      (summaryRowOf envW3 reqW3).summary_content = p) :=
  C9_model_recorded_and_keys envW3 dbAliceI1 reqW3 "t" "alice" rfl rfl rfl rfl

/-- **C10.** When the analysis handler is invoked with a non-empty
`templateId` whose caller-scoped lookup finds nothing, the insert
payload's `template_id` is still exactly the supplied id, the default
prompt betrays the failed lookup only in the prompt choice, and on a
successful invocation the stored row carries that same `template_id`. -/
theorem C10_raw_template_id_stored
    (env : ProcessEnv) (db : Db) (req : ProcessRequest) (a uid tid : String)
    (hah : req.authHeader = some a)
    (hau : env.authUser = some uid)
    (hok : env.openAIOk = true)
    (htid : req.templateId = some tid)
    (hne : tid ≠ "")
    (hlook : selectTemplateScoped db tid uid = none) :
    (summaryRowOf env req).template_id = some tid ∧
    (processInterview env db req).sentSystemPrompt = some defaultSystemPrompt ∧
    ((processInterview env db req).success = true →
      (processInterview env db req).db.interview_summaries.getLast? =
        some (summaryRowOf env req)) := by
  have hprompt : systemPromptOf db uid req = defaultSystemPrompt := by
    simp only [systemPromptOf, templateContentOf, htid, hne, ne_eq,
      not_false_eq_true, if_true, hlook, Option.none_bind]
  refine ⟨by rw [show (summaryRowOf env req).template_id = req.templateId
    from rfl, htid], ?_, ?_⟩
  · cases hins : insertSummary db (summaryRowOf env req) with
    | error e =>
      simp only [processInterview, hah, hau, hok, Bool.not_true,
        Bool.false_eq_true, if_false, hins, processErr, hprompt]
    | ok db1 =>
      simp only [processInterview, hah, hau, hok, Bool.not_true,
        Bool.false_eq_true, if_false, hins, hprompt]
  · intro hsucc
    cases hins : insertSummary db (summaryRowOf env req) with
    | error e =>
      exfalso
      simp only [processInterview, hah, hau, hok, Bool.not_true,
        Bool.false_eq_true, if_false, hins, processErr] at hsucc
    | ok db1 =>
      have hspec := insertSummary_ok_spec db _ db1 hins
      simp only [processInterview, hah, hau, hok, Bool.not_true,
        Bool.false_eq_true, if_false, hins]
      have hsum : (match req.interviewId with
          | some iid => updateInterviewStatus db1 iid "completed"
          | none => db1).interview_summaries = db1.interview_summaries := by
        cases req.interviewId with
        | none => rfl
        | some iid => exact update_preserves_summaries db1 iid "completed"
      rw [hsum, hspec.2.1, List.getLast?_concat]

/-- Witness for C10: `templateId = "t9"` is owned by `carol`, the lookup
scoped to `alice` finds nothing, yet the stored row carries
`template_id = some "t9"`. -/
theorem C10_raw_template_id_stored_witness :
    (summaryRowOf envW10 reqW10).template_id = some "t9" ∧
    (processInterview envW10 dbW7 reqW10).sentSystemPrompt =
      some defaultSystemPrompt ∧
    ((processInterview envW10 dbW7 reqW10).success = true →
      (processInterview envW10 dbW7 reqW10).db.interview_summaries.getLast? =
        some (summaryRowOf envW10 reqW10)) :=
  C10_raw_template_id_stored envW10 dbW7 reqW10 "t" "alice" "t9"
    rfl rfl rfl rfl (by decide) rfl

end HireScribe
